import Mathlib

/-!
Verification development for the cartridge upload synchronization engine
of the `prophet` extension (`src/providers/Uploader.ts`).

The definitions below are a shallow embedding of the code:

* `basename` models the node `path.basename` helper for POSIX-style paths
  (segment after the last slash, trailing slashes ignored);
* `diff` is the module-level `diff` helper (line 10 of `Uploader.ts`);
* `askCleanCartridge` embeds the method of the same name (lines 66-114),
  with the process-wide mutable `removeFilesMode`, the config field
  `cartridgeResolution` and the user prompt response made explicit inputs,
  and the updated `removeFilesMode` plus a "was the prompt shown" flag
  made explicit outputs;
* `removeDuplicateCartridges` embeds the method of the same name
  (lines 119-140);
* `allowListFilter`, `missedCartridges`, `missingWarningShown` embed the
  allow-list reconciliation block of `loadUploaderConfig` (lines 166-179);
* the `MState`/`step`/`run` machinery embeds the session lifecycle of the
  `Uploader` class (constructor command subscription, `loadUploaderConfig`,
  `start`), with the asynchronous outcome of each start attempt supplied
  by the environment as part of the triggering event.
-/

namespace Prophet

/-- Model of node `path.basename` for POSIX-style paths: the last
non-empty segment, ignoring trailing slashes; empty when there is none. -/
def basename (p : String) : String :=
  String.mk ((((p.data.reverse).dropWhile (fun c => c = '/')).takeWhile
    (fun c => ¬ c = '/')).reverse)

/-- The module-level helper `diff(a, b) = b.filter(i => a.indexOf(i) < 0)`
(`Uploader.ts` line 10): the elements of `b` that do not occur in `a`. -/
def diff (a b : List String) : List String :=
  b.filter (fun i => decide (i ∉ a))

/-- Model of the JavaScript test `name.endsWith(".zip")`. -/
def endsWithZip (name : String) : Bool :=
  decide (name.data.reverse.take 4 = ['p', 'i', 'z', '.'])

/-- The process-wide sticky conflict policy (`removeFilesMode`,
`Uploader.ts` line 15); `Option` of this type models
`undefined | "remove" | "leave"`. -/
inductive RemoveFilesMode
  | remove
  | leave
  deriving DecidableEq, Repr

/-- The config field `cartridgeResolution` read from the dw config file. -/
inductive CartridgeResolution
  | remove
  | leave
  deriving DecidableEq, Repr

/-- The four buttons of the warning prompt shown by `askCleanCartridge`;
`Option` of this type models the response, `none` meaning the user
dismissed the prompt. -/
inductive PromptChoice
  | removeAllAlways
  | leaveAllAlways
  | removeAllOnce
  | leaveAllOnce
  deriving DecidableEq, Repr

/-- Result of one `askCleanCartridge` call: the returned list of remote
names to delete, the value of the process-wide `removeFilesMode` after the
call, and whether the user prompt was shown during the call. -/
structure AskResult where
  deleted : List String
  mode : Option RemoveFilesMode
  prompted : Bool
  deriving DecidableEq, Repr

/-- The `extraOnSB` computation of `askCleanCartridge` (lines 67-70):
remote names not among the basenames of the local cartridges, with names
ending in `.zip` filtered out. -/
def extraOnSB (fileNamesOnSandbox cartridgesToUpload : List String) :
    List String :=
  (diff (cartridgesToUpload.map basename) fileNamesOnSandbox).filter
    (fun name => ¬ endsWithZip name)

/-- Shallow embedding of `Uploader.askCleanCartridge` (lines 66-114).
The mutable process state `removeFilesMode`, the config's
`cartridgeResolution` and the prompt response are explicit inputs; the
result records the returned list, the new `removeFilesMode`, and whether
the prompt was reached. -/
def askCleanCartridge (removeFilesMode : Option RemoveFilesMode)
    (cartridgeResolution : Option CartridgeResolution)
    (response : Option PromptChoice)
    (fileNamesOnSandbox cartridgesToUpload : List String) : AskResult :=
  if (extraOnSB fileNamesOnSandbox cartridgesToUpload).length = 0 then
    ⟨[], removeFilesMode, false⟩
  else
    match removeFilesMode with
    | some RemoveFilesMode.remove => ⟨fileNamesOnSandbox, removeFilesMode, false⟩
    | some RemoveFilesMode.leave => ⟨[], removeFilesMode, false⟩
    | none =>
      match cartridgeResolution with
      | some CartridgeResolution.remove =>
        ⟨fileNamesOnSandbox, some RemoveFilesMode.remove, false⟩
      | some CartridgeResolution.leave =>
        ⟨[], some RemoveFilesMode.leave, false⟩
      | none =>
        match response with
        | some PromptChoice.removeAllAlways =>
          ⟨fileNamesOnSandbox, some RemoveFilesMode.remove, true⟩
        | some PromptChoice.leaveAllAlways =>
          ⟨[], some RemoveFilesMode.leave, true⟩
        | some PromptChoice.removeAllOnce => ⟨fileNamesOnSandbox, none, true⟩
        | some PromptChoice.leaveAllOnce => ⟨[], none, true⟩
        | none => ⟨[], none, true⟩

/-- The filtering loop of `Uploader.removeDuplicateCartridges`
(lines 120-130): `seen` is the `uniqueCartridges` accumulator of already
seen basenames; a cartridge is kept exactly when its basename is not yet
in the accumulator, which is then extended (`push`). -/
def dedupGo (seen : List String) : List String → List String
  | [] => []
  | cartridge :: rest =>
    if basename cartridge ∈ seen then dedupGo seen rest
    else cartridge :: dedupGo (seen ++ [basename cartridge]) rest

/-- Shallow embedding of `Uploader.removeDuplicateCartridges`
(lines 119-140): the returned (filtered) list. The duplicate warning is a
side effect that does not change the returned value. -/
def removeDuplicateCartridges (cartridgesToUpload : List String) :
    List String :=
  dedupGo [] cartridgesToUpload

/-- Written from the spec wording for the Deduplicator: keep the first
occurrence of each distinct basename in input order, dropping every later
occurrence with an already seen basename. -/
def keepFirstOccurrences : List String → List String
  | [] => []
  | c :: rest =>
    c :: keepFirstOccurrences (rest.filter (fun c2 => basename c2 ≠ basename c))
termination_by l => l.length
decreasing_by
  simp only [List.length_cons]
  exact Nat.lt_succ_of_le (List.length_filter_le _ _)

/-- The allow-list filter of `loadUploaderConfig` (lines 167-170): keep
the resolved cartridges whose basename occurs in the configured
allow-list. -/
def allowListFilter (cartridges : List String) (allowList : List String) :
    List String :=
  cartridges.filter (fun cartridge =>
    allowList.any (fun dwCar => basename cartridge == dwCar))

/-- The `missedCartridges` computation (lines 173-175): allow-list names
matched by no filtered cartridge. -/
def missedCartridges (allowList filteredCartridges : List String) :
    List String :=
  allowList.filter (fun dwCar =>
    ¬ filteredCartridges.any (fun cartridge => basename cartridge == dwCar))

/-- The condition under which the missing-cartridge warning is shown
(line 172): the filtered list and the allow-list differ in length. -/
def missingWarningShown (cartridges allowList : List String) : Bool :=
  (allowListFilter cartridges allowList).length != allowList.length

/-- Environment-supplied outcome of one start attempt
(`loadUploaderConfig`, lines 155-209): the reactive chain succeeds, the
dw config load fails (before `uploadServer.init` is reached, so before
the `cleanOnStart` getter and the config-file log line), or
`uploadServer.init` fails after the config was loaded. The optional
stack models `err instanceof Error` (line 201). -/
inductive StartOutcome
  | ok
  | configLoadError (msg : String) (stack : Option String)
  | initError (msg : String) (stack : Option String)
  deriving DecidableEq, Repr

/-- One subscription created by `loadUploaderConfig`: whether it is still
live (not unsubscribed and not terminated by an error), and the
`cleanOnStart` value passed to `uploadServer.init`, `none` when the init
call was never reached. -/
structure SessionRec where
  live : Bool
  cleanOpt : Option Bool
  deriving DecidableEq, Repr

/-- The per-run fixed configuration values read from the host: the
`clean.on.start` setting and the dw config filename. -/
structure RunCfg where
  cleanOnStartCfg : Bool
  configFilename : String
  deriving DecidableEq, Repr

/-- State of one `Uploader` instance together with the process-wide
`firstClean` flag: the history of created subscriptions (the live flags
record which are active), the index held by the `uploaderSubscription`
field, the `prevState` enabled flag, and the output-channel log. -/
structure MState where
  firstClean : Bool
  sessions : List SessionRec
  current : Option Nat
  prevState : Option Bool
  log : List String
  deriving DecidableEq, Repr

/-- Mark the subscription at index `i` as no longer live (unsubscribe or
error termination); other entries are unchanged. -/
def closeSession : List SessionRec → Nat → List SessionRec
  | [], _ => []
  | r :: rest, 0 => { r with live := false } :: rest
  | r :: rest, n + 1 => r :: closeSession rest n

/-- Unsubscribe the current `uploaderSubscription` (if any) and clear the
field, as in lines 146-148. -/
def killCurrent (s : MState) : MState :=
  match s.current with
  | none => s
  | some i => { s with sessions := closeSession s.sessions i, current := none }

/-- The `cleanOnStart` getter (lines 24-31): on the first access per
process it reads the `clean.on.start` setting and clears `firstClean`;
afterwards it always yields `true`. -/
def cleanOnStart (cfg : RunCfg) (s : MState) : Bool × MState :=
  if s.firstClean then (cfg.cleanOnStartCfg, { s with firstClean := false })
  else (true, s)

/-- The error report of the subscription error handler (lines 198-204):
the message line, plus the stack line when the error carries one. -/
def errorLines (msg : String) (stack : Option String) : List String :=
  ("Error: " ++ msg) ::
    (match stack with
     | some st => [("Error: " ++ st)]
     | none => [])

/-- The teardown-then-log prelude of `loadUploaderConfig`
(lines 146-152). -/
def loadTeardown (s : MState) : MState :=
  match s.current with
  | some _ =>
    let sk := killCurrent s
    { sk with log := sk.log ++ ["Restarting"] }
  | none => { s with log := s.log ++ ["Starting..."] }

/-- Shallow embedding of `Uploader.loadUploaderConfig` (lines 145-210):
tear down any existing subscription first (logging `Restarting`, else
`Starting...`), then create the new subscription; the supplied outcome
decides whether it stays live or terminates with an error report. -/
def loadUploaderConfig (cfg : RunCfg) (outcome : StartOutcome)
    (s : MState) : MState :=
  let s1 := loadTeardown s
  match outcome with
  | StartOutcome.configLoadError msg stack =>
    { s1 with
      sessions := s1.sessions ++ [⟨false, none⟩],
      current := some s1.sessions.length,
      log := s1.log ++ errorLines msg stack }
  | StartOutcome.initError msg stack =>
    let c := cleanOnStart cfg s1
    { c.2 with
      sessions := c.2.sessions ++ [⟨false, some c.1⟩],
      current := some c.2.sessions.length,
      log := c.2.log ++ ["Using config file " ++ cfg.configFilename] ++
        errorLines msg stack }
  | StartOutcome.ok =>
    let c := cleanOnStart cfg s1
    { c.2 with
      sessions := c.2.sessions ++ [⟨true, some c.1⟩],
      current := some c.2.sessions.length,
      log := c.2.log ++ ["Using config file " ++ cfg.configFilename] }

/-- The `disable.upload` / enabled-flag-off teardown (lines 47-51 and
271-275): stop and clear the current subscription if there is one, else
do nothing. -/
def stopCurrent (s : MState) : MState :=
  match s.current with
  | some _ =>
    let sk := killCurrent s
    { sk with log := sk.log ++ ["Stopping"] }
  | none => s

/-- External events driving one `Uploader`: the command-bus commands
(constructor, lines 43-53) and a configuration change observed by
`start` (lines 263-278). Start-triggering events carry the outcome of
the started attempt. -/
inductive Event
  | cmdEnable (outcome : StartOutcome)
  | cmdClean (outcome : StartOutcome)
  | cmdDisable
  | cfgChange (enabled : Bool) (outcome : StartOutcome)
  deriving DecidableEq, Repr

/-- One step of the `Uploader` event loop. A configuration change only
acts on a detected flip of the enabled flag against `prevState`. -/
def step (cfg : RunCfg) (s : MState) : Event → MState
  | Event.cmdEnable outcome => loadUploaderConfig cfg outcome s
  | Event.cmdClean outcome => loadUploaderConfig cfg outcome s
  | Event.cmdDisable => stopCurrent s
  | Event.cfgChange enabled outcome =>
    if s.prevState = some enabled then s
    else
      let s' := { s with prevState := some enabled }
      if enabled then loadUploaderConfig cfg outcome s'
      else stopCurrent s'

/-- Fresh process state: `firstClean` set, no subscriptions, empty log. -/
def initState : MState :=
  ⟨true, [], none, none, []⟩

/-- The startup block of `Uploader.start` (lines 281-287): record the
enabled flag in `prevState`, then either start immediately or log that
the uploader is disabled. -/
def startUploader (cfg : RunCfg) (enabled : Bool) (outcome : StartOutcome) :
    MState :=
  let s := { initState with prevState := some enabled }
  if enabled then loadUploaderConfig cfg outcome s
  else { s with log := s.log ++ ["Uploader disabled via configuration"] }

/-- A whole run: start the uploader, then process the event list. -/
def run (cfg : RunCfg) (enabled : Bool) (outcome : StartOutcome)
    (events : List Event) : MState :=
  events.foldl (step cfg) (startUploader cfg enabled outcome)

/-- Number of live subscriptions in a state. -/
def liveCount (s : MState) : Nat :=
  (s.sessions.filter (fun r => r.live)).length

/-- The sequence of `cleanOnStart` values actually passed to
`uploadServer.init`, in session-start order. -/
def cleanValues (s : MState) : List Bool :=
  s.sessions.filterMap (fun r => r.cleanOpt)

/-- All recorded subscriptions are dead. -/
def allDead (l : List SessionRec) : Prop :=
  ∀ r ∈ l, r.live = false

/-- Session invariant: when no subscription is held every recorded
subscription is dead; when one is held it is the most recently created
one and every earlier one is dead. -/
def SessionInv (s : MState) : Prop :=
  (s.current = none → allDead s.sessions) ∧
  (∀ i, s.current = some i →
    i + 1 = s.sessions.length ∧ allDead (s.sessions.take i))

/-- Invariant tying the process-wide `firstClean` flag to the sequence of
`cleanOnStart` values handed to the transport: before the first consult
no value was handed out; afterwards the first handed value is the
configured one and every later one is `true`. -/
def CleanInv (cfg : RunCfg) (s : MState) : Prop :=
  (s.firstClean = true ∧ cleanValues s = []) ∨
  (s.firstClean = false ∧
    ∃ n, cleanValues s = cfg.cleanOnStartCfg :: List.replicate n true)

theorem closeSession_length (l : List SessionRec) (i : Nat) :
    (closeSession l i).length = l.length := by
  induction l generalizing i with
  | nil => rfl
  | cons r rest ih =>
    cases i with
    | zero => simp [closeSession]
    | succ n => simp [closeSession, ih]

theorem closeSession_allDead (l : List SessionRec) (i : Nat)
    (hd : allDead (l.take i)) (hl : i + 1 = l.length) :
    allDead (closeSession l i) := by
  induction l generalizing i with
  | nil => intro r hr; simp [closeSession] at hr
  | cons a rest ih =>
    cases i with
    | zero =>
      have hrest : rest = [] := by
        cases rest with
        | nil => rfl
        | cons b bs => simp at hl
      subst hrest
      intro r hr
      simp [closeSession] at hr
      subst hr
      rfl
    | succ n =>
      have ha : a.live = false := by
        apply hd
        simp [List.take_succ_cons]
      have hd' : allDead (rest.take n) := by
        intro r hr
        apply hd
        simp [List.take_succ_cons, hr]
      have hl' : n + 1 = rest.length := by
        simpa using hl
      intro r hr
      simp only [closeSession, List.mem_cons] at hr
      rcases hr with hr | hr
      · subst hr; exact ha
      · exact ih n hd' hl' r hr

theorem killCurrent_spec (s : MState) (h : SessionInv s) :
    allDead (killCurrent s).sessions ∧ (killCurrent s).current = none := by
  rcases hc : s.current with _ | i
  · constructor
    · simpa [killCurrent, hc] using h.1 hc
    · simp [killCurrent, hc]
  · rcases h.2 i hc with ⟨hl, hd⟩
    constructor
    · simpa [killCurrent, hc] using closeSession_allDead s.sessions i hd hl
    · simp [killCurrent, hc]

theorem killCurrent_log (s : MState) : (killCurrent s).log = s.log := by
  rcases hc : s.current with _ | i <;> simp [killCurrent, hc]

theorem killCurrent_firstClean (s : MState) :
    (killCurrent s).firstClean = s.firstClean := by
  rcases hc : s.current with _ | i <;> simp [killCurrent, hc]

theorem killCurrent_length (s : MState) :
    (killCurrent s).sessions.length = s.sessions.length := by
  rcases hc : s.current with _ | i <;>
    simp [killCurrent, hc, closeSession_length]

theorem loadTeardown_spec (s : MState) (h : SessionInv s) :
    allDead (loadTeardown s).sessions ∧ (loadTeardown s).current = none := by
  rcases hc : s.current with _ | i
  · exact ⟨by simpa [loadTeardown, hc] using h.1 hc, by simp [loadTeardown, hc]⟩
  · rcases killCurrent_spec s h with ⟨hd, hn⟩
    exact ⟨by simpa [loadTeardown, hc] using hd, by simpa [loadTeardown, hc] using hn⟩

theorem loadTeardown_log (s : MState) :
    (loadTeardown s).log =
      s.log ++ (if s.current.isSome then ["Restarting"] else ["Starting..."]) := by
  rcases hc : s.current with _ | i <;>
    simp [loadTeardown, hc, killCurrent_log]

theorem loadTeardown_length (s : MState) :
    (loadTeardown s).sessions.length = s.sessions.length := by
  rcases hc : s.current with _ | i <;>
    simp [loadTeardown, hc, killCurrent_length]

theorem loadTeardown_firstClean (s : MState) :
    (loadTeardown s).firstClean = s.firstClean := by
  rcases hc : s.current with _ | i <;>
    simp [loadTeardown, hc, killCurrent_firstClean]

theorem cleanOnStart_state (cfg : RunCfg) (t : MState) :
    ((cleanOnStart cfg t).2).sessions = t.sessions ∧
    ((cleanOnStart cfg t).2).current = t.current ∧
    ((cleanOnStart cfg t).2).log = t.log := by
  by_cases h : t.firstClean <;> simp [cleanOnStart, h]

theorem sessionInv_of_append (s : MState) (l : List SessionRec)
    (r : SessionRec) (hs : s.sessions = l ++ [r])
    (hc : s.current = some l.length) (hd : allDead l) : SessionInv s := by
  constructor
  · intro h
    rw [h] at hc
    exact absurd hc (by simp)
  · intro i hi
    rw [hc] at hi
    injection hi with hi
    subst hi
    constructor
    · rw [hs]
      simp
    · rw [hs, List.take_left]
      exact hd

theorem sessionInv_load (cfg : RunCfg) (o : StartOutcome) (s : MState)
    (h : SessionInv s) : SessionInv (loadUploaderConfig cfg o s) := by
  rcases loadTeardown_spec s h with ⟨hd, _⟩
  rcases cleanOnStart_state cfg (loadTeardown s) with ⟨hcs, _, _⟩
  cases o with
  | configLoadError msg stack =>
    exact sessionInv_of_append _ (loadTeardown s).sessions ⟨false, none⟩
      rfl rfl hd
  | initError msg stack =>
    exact sessionInv_of_append _
      ((cleanOnStart cfg (loadTeardown s)).2).sessions ⟨false, _⟩
      rfl rfl (hcs ▸ hd)
  | ok =>
    exact sessionInv_of_append _
      ((cleanOnStart cfg (loadTeardown s)).2).sessions ⟨true, _⟩
      rfl rfl (hcs ▸ hd)

theorem sessionInv_of_none (s : MState) (hc : s.current = none)
    (hd : allDead s.sessions) : SessionInv s := by
  constructor
  · intro _
    exact hd
  · intro i hi
    rw [hc] at hi
    exact absurd hi (by simp)

theorem sessionInv_stop (s : MState) (h : SessionInv s) :
    SessionInv (stopCurrent s) := by
  rcases hc : s.current with _ | i
  · simpa [stopCurrent, hc] using h
  · rcases killCurrent_spec s h with ⟨hd, hn⟩
    apply sessionInv_of_none
    · simp [stopCurrent, hc, hn]
    · simpa [stopCurrent, hc] using hd

theorem sessionInv_step (cfg : RunCfg) (s : MState) (e : Event)
    (h : SessionInv s) : SessionInv (step cfg s e) := by
  cases e with
  | cmdEnable o => exact sessionInv_load cfg o s h
  | cmdClean o => exact sessionInv_load cfg o s h
  | cmdDisable => exact sessionInv_stop s h
  | cfgChange en o =>
    by_cases hp : s.prevState = some en
    · simpa [step, hp] using h
    · have h' : SessionInv { s with prevState := some en } := h
      cases en with
      | true =>
        simpa [step, hp] using
          sessionInv_load cfg o { s with prevState := some true } h'
      | false =>
        simpa [step, hp] using
          sessionInv_stop { s with prevState := some false } h'

theorem sessionInv_startUploader (cfg : RunCfg) (en : Bool)
    (o : StartOutcome) : SessionInv (startUploader cfg en o) := by
  have h0 : SessionInv { initState with prevState := some en } := by
    apply sessionInv_of_none
    · rfl
    · intro r hr
      simp [initState] at hr
  by_cases hen : en = true
  · simpa [startUploader, hen] using
      sessionInv_load cfg o { initState with prevState := some en } h0
  · apply sessionInv_of_none <;> simp [startUploader, hen, initState, allDead]

theorem sessionInv_foldl (cfg : RunCfg) (evs : List Event) :
    ∀ s, SessionInv s → SessionInv (evs.foldl (step cfg) s) := by
  induction evs with
  | nil => intro s h; exact h
  | cons e rest ih =>
    intro s h
    exact ih _ (sessionInv_step cfg s e h)

theorem sessionInv_run (cfg : RunCfg) (en : Bool) (o : StartOutcome)
    (evs : List Event) : SessionInv (run cfg en o evs) :=
  sessionInv_foldl cfg evs _ (sessionInv_startUploader cfg en o)

theorem filter_live_eq_nil (l : List SessionRec) (h : allDead l) :
    l.filter (fun r => r.live) = [] := by
  apply List.filter_eq_nil_iff.mpr
  intro r hr
  simp [h r hr]

theorem liveCount_eq_zero_of_allDead (s : MState)
    (h : allDead s.sessions) : liveCount s = 0 := by
  simp [liveCount, filter_live_eq_nil s.sessions h]

theorem liveCount_le_one (s : MState) (h : SessionInv s) :
    liveCount s ≤ 1 := by
  rcases hc : s.current with _ | i
  · simp [liveCount_eq_zero_of_allDead s (h.1 hc)]
  · rcases h.2 i hc with ⟨hl, hd⟩
    have h1 : (s.sessions.take i).filter (fun r => r.live) = [] :=
      filter_live_eq_nil _ hd
    have h2 : ((s.sessions.drop i).filter (fun r => r.live)).length ≤
        (s.sessions.drop i).length := List.length_filter_le _ _
    have h3 : (s.sessions.drop i).length = 1 := by
      rw [List.length_drop]
      omega
    unfold liveCount
    conv_lhs => rw [← List.take_append_drop i s.sessions]
    rw [List.filter_append, List.length_append, h1]
    simpa [h3] using h2

theorem allDead_append (l : List SessionRec) (r : SessionRec)
    (hl : allDead l) (hr : r.live = false) : allDead (l ++ [r]) := by
  intro x hx
  rcases List.mem_append.mp hx with h | h
  · exact hl x h
  · simp at h
    subst h
    exact hr

theorem load_configErr_fields (cfg : RunCfg) (msg : String)
    (stack : Option String) (s : MState) :
    (loadUploaderConfig cfg (StartOutcome.configLoadError msg stack) s).sessions
      = (loadTeardown s).sessions ++ [{ live := false, cleanOpt := none }] ∧
    (loadUploaderConfig cfg (StartOutcome.configLoadError msg stack) s).log
      = (loadTeardown s).log ++ errorLines msg stack ∧
    (loadUploaderConfig cfg (StartOutcome.configLoadError msg stack) s).firstClean
      = (loadTeardown s).firstClean :=
  ⟨rfl, rfl, rfl⟩

theorem load_initErr_fields (cfg : RunCfg) (msg : String)
    (stack : Option String) (s : MState) :
    (loadUploaderConfig cfg (StartOutcome.initError msg stack) s).sessions
      = ((cleanOnStart cfg (loadTeardown s)).2).sessions ++
        [{ live := false,
           cleanOpt := some (cleanOnStart cfg (loadTeardown s)).1 }] ∧
    (loadUploaderConfig cfg (StartOutcome.initError msg stack) s).log
      = ((cleanOnStart cfg (loadTeardown s)).2).log ++
        ["Using config file " ++ cfg.configFilename] ++ errorLines msg stack ∧
    (loadUploaderConfig cfg (StartOutcome.initError msg stack) s).firstClean
      = ((cleanOnStart cfg (loadTeardown s)).2).firstClean :=
  ⟨rfl, rfl, rfl⟩

theorem load_ok_fields (cfg : RunCfg) (s : MState) :
    (loadUploaderConfig cfg StartOutcome.ok s).sessions
      = ((cleanOnStart cfg (loadTeardown s)).2).sessions ++
        [{ live := true,
           cleanOpt := some (cleanOnStart cfg (loadTeardown s)).1 }] ∧
    (loadUploaderConfig cfg StartOutcome.ok s).log
      = ((cleanOnStart cfg (loadTeardown s)).2).log ++
        ["Using config file " ++ cfg.configFilename] ∧
    (loadUploaderConfig cfg StartOutcome.ok s).firstClean
      = ((cleanOnStart cfg (loadTeardown s)).2).firstClean :=
  ⟨rfl, rfl, rfl⟩

theorem cleanOnStart_fst (cfg : RunCfg) (t : MState) :
    (cleanOnStart cfg t).1 =
      if t.firstClean then cfg.cleanOnStartCfg else true := by
  by_cases h : t.firstClean <;> simp [cleanOnStart, h]

theorem cleanOnStart_firstClean (cfg : RunCfg) (t : MState) :
    ((cleanOnStart cfg t).2).firstClean = false := by
  by_cases h : t.firstClean <;> simp [cleanOnStart, h]

theorem loadUploaderConfig_error (cfg : RunCfg) (s : MState) (msg : String)
    (stack : Option String) (k : Bool) (h : SessionInv s) :
    liveCount (loadUploaderConfig cfg
      (if k then StartOutcome.configLoadError msg stack
       else StartOutcome.initError msg stack) s) = 0 ∧
    (loadUploaderConfig cfg
      (if k then StartOutcome.configLoadError msg stack
       else StartOutcome.initError msg stack) s).log =
      s.log ++ (if s.current.isSome then ["Restarting"] else ["Starting..."]) ++
      (if k then [] else ["Using config file " ++ cfg.configFilename]) ++
      errorLines msg stack ∧
    (loadUploaderConfig cfg
      (if k then StartOutcome.configLoadError msg stack
       else StartOutcome.initError msg stack) s).sessions.length =
      s.sessions.length + 1 := by
  rcases loadTeardown_spec s h with ⟨hd, _⟩
  rcases cleanOnStart_state cfg (loadTeardown s) with ⟨hcs, _, hcl⟩
  cases k with
  | true =>
    rw [show (if (true : Bool) = true then StartOutcome.configLoadError msg stack
      else StartOutcome.initError msg stack) = StartOutcome.configLoadError msg stack
      from rfl]
    rcases load_configErr_fields cfg msg stack s with ⟨h1, h2, _⟩
    refine ⟨?_, ?_, ?_⟩
    · apply liveCount_eq_zero_of_allDead
      rw [h1]
      exact allDead_append _ _ hd rfl
    · rw [h2, loadTeardown_log]
      simp [List.append_assoc]
    · rw [h1, List.length_append, loadTeardown_length]
      rfl
  | false =>
    rw [show (if (false : Bool) = true then StartOutcome.configLoadError msg stack
      else StartOutcome.initError msg stack) = StartOutcome.initError msg stack
      from rfl]
    rcases load_initErr_fields cfg msg stack s with ⟨h1, h2, _⟩
    refine ⟨?_, ?_, ?_⟩
    · apply liveCount_eq_zero_of_allDead
      rw [h1, hcs]
      exact allDead_append _ _ hd rfl
    · rw [h2, hcl, loadTeardown_log]
      simp [List.append_assoc]
    · rw [h1, List.length_append, hcs, loadTeardown_length]
      rfl

theorem cleanValues_closeSession (l : List SessionRec) (i : Nat) :
    (closeSession l i).filterMap (fun r => r.cleanOpt) =
      l.filterMap (fun r => r.cleanOpt) := by
  induction l generalizing i with
  | nil => rfl
  | cons a rest ih =>
    cases i with
    | zero =>
      cases ha : a.cleanOpt <;>
        simp [closeSession, List.filterMap_cons, ha]
    | succ n =>
      cases ha : a.cleanOpt <;>
        simp [closeSession, List.filterMap_cons, ha, ih]

theorem cleanValues_killCurrent (s : MState) :
    cleanValues (killCurrent s) = cleanValues s := by
  rcases hc : s.current with _ | i <;>
    simp [killCurrent, hc, cleanValues, cleanValues_closeSession]

theorem cleanValues_loadTeardown (s : MState) :
    cleanValues (loadTeardown s) = cleanValues s := by
  rcases hc : s.current with _ | i <;>
    simp [loadTeardown, hc, cleanValues, cleanValues_killCurrent,
      cleanValues_closeSession, killCurrent]

theorem cleanValues_stopCurrent (s : MState) :
    cleanValues (stopCurrent s) = cleanValues s := by
  rcases hc : s.current with _ | i <;>
    simp [stopCurrent, hc, cleanValues, cleanValues_closeSession, killCurrent]

theorem stopCurrent_firstClean (s : MState) :
    (stopCurrent s).firstClean = s.firstClean := by
  rcases hc : s.current with _ | i <;>
    simp [stopCurrent, hc, killCurrent_firstClean, killCurrent]

theorem filterMap_singleton_clean (r : SessionRec) :
    List.filterMap (fun x => x.cleanOpt) [r] = r.cleanOpt.toList := by
  cases hr : r.cleanOpt <;> simp [List.filterMap_cons, hr, Option.toList]

theorem cleanValues_eq_of_sessions (t u : MState) (r : SessionRec)
    (hs : t.sessions = u.sessions ++ [r]) :
    cleanValues t = cleanValues u ++ r.cleanOpt.toList := by
  rw [cleanValues, hs, List.filterMap_append, filterMap_singleton_clean,
    cleanValues]

theorem cleanValues_cleanOnStart (cfg : RunCfg) (t : MState) :
    cleanValues ((cleanOnStart cfg t).2) = cleanValues t := by
  rw [cleanValues, (cleanOnStart_state cfg t).1, cleanValues]

theorem cleanInv_load (cfg : RunCfg) (o : StartOutcome) (s : MState)
    (h : CleanInv cfg s) : CleanInv cfg (loadUploaderConfig cfg o s) := by
  cases o with
  | configLoadError msg stack =>
    rcases load_configErr_fields cfg msg stack s with ⟨hs, _, hf⟩
    have hv : cleanValues
        (loadUploaderConfig cfg (StartOutcome.configLoadError msg stack) s) =
        cleanValues s := by
      rw [cleanValues_eq_of_sessions _ _ _ hs, cleanValues_loadTeardown]
      simp [Option.toList]
    have hfc := hf.trans (loadTeardown_firstClean s)
    rcases h with ⟨ha, hb⟩ | ⟨ha, hb⟩
    · exact Or.inl ⟨by rw [hfc, ha], by rw [hv, hb]⟩
    · exact Or.inr ⟨by rw [hfc, ha], by rw [hv]; exact hb⟩
  | initError msg stack =>
    rcases load_initErr_fields cfg msg stack s with ⟨hs, _, hf⟩
    have hfc : (loadUploaderConfig cfg
        (StartOutcome.initError msg stack) s).firstClean = false :=
      hf.trans (cleanOnStart_firstClean cfg (loadTeardown s))
    have hv : cleanValues
        (loadUploaderConfig cfg (StartOutcome.initError msg stack) s) =
        cleanValues s ++ [(cleanOnStart cfg (loadTeardown s)).1] := by
      rw [cleanValues_eq_of_sessions _ _ _ hs, cleanValues_cleanOnStart,
        cleanValues_loadTeardown]
      rfl
    rcases h with ⟨ha, hb⟩ | ⟨ha, hb⟩
    · have hc1 : (cleanOnStart cfg (loadTeardown s)).1 = cfg.cleanOnStartCfg := by
        rw [cleanOnStart_fst, loadTeardown_firstClean, ha]
        simp
      exact Or.inr ⟨hfc, 0, by rw [hv, hb, hc1]; simp⟩
    · rcases hb with ⟨n, hb⟩
      have hc1 : (cleanOnStart cfg (loadTeardown s)).1 = true := by
        rw [cleanOnStart_fst, loadTeardown_firstClean, ha]
        simp
      exact Or.inr ⟨hfc, n + 1,
        by rw [hv, hb, hc1]; simp [List.replicate_succ']⟩
  | ok =>
    rcases load_ok_fields cfg s with ⟨hs, _, hf⟩
    have hfc : (loadUploaderConfig cfg StartOutcome.ok s).firstClean = false :=
      hf.trans (cleanOnStart_firstClean cfg (loadTeardown s))
    have hv : cleanValues (loadUploaderConfig cfg StartOutcome.ok s) =
        cleanValues s ++ [(cleanOnStart cfg (loadTeardown s)).1] := by
      rw [cleanValues_eq_of_sessions _ _ _ hs, cleanValues_cleanOnStart,
        cleanValues_loadTeardown]
      rfl
    rcases h with ⟨ha, hb⟩ | ⟨ha, hb⟩
    · have hc1 : (cleanOnStart cfg (loadTeardown s)).1 = cfg.cleanOnStartCfg := by
        rw [cleanOnStart_fst, loadTeardown_firstClean, ha]
        simp
      exact Or.inr ⟨hfc, 0, by rw [hv, hb, hc1]; simp⟩
    · rcases hb with ⟨n, hb⟩
      have hc1 : (cleanOnStart cfg (loadTeardown s)).1 = true := by
        rw [cleanOnStart_fst, loadTeardown_firstClean, ha]
        simp
      exact Or.inr ⟨hfc, n + 1,
        by rw [hv, hb, hc1]; simp [List.replicate_succ']⟩

theorem cleanInv_step (cfg : RunCfg) (s : MState) (e : Event)
    (h : CleanInv cfg s) : CleanInv cfg (step cfg s e) := by
  have hstop : ∀ t, CleanInv cfg t → CleanInv cfg (stopCurrent t) := by
    intro t ht
    rcases ht with ⟨h1, h2⟩ | ⟨h1, h2⟩
    · exact Or.inl ⟨by rw [stopCurrent_firstClean, h1],
        by rw [cleanValues_stopCurrent, h2]⟩
    · exact Or.inr ⟨by rw [stopCurrent_firstClean, h1],
        by rw [cleanValues_stopCurrent]; exact h2⟩
  cases e with
  | cmdEnable o => exact cleanInv_load cfg o s h
  | cmdClean o => exact cleanInv_load cfg o s h
  | cmdDisable => exact hstop s h
  | cfgChange en o =>
    by_cases hp : s.prevState = some en
    · simpa [step, hp] using h
    · have h' : CleanInv cfg { s with prevState := some en } := h
      cases en with
      | true =>
        simpa [step, hp] using
          cleanInv_load cfg o { s with prevState := some true } h'
      | false =>
        simpa [step, hp] using
          hstop { s with prevState := some false } h'

theorem dedupGo_sublist (l : List String) :
    ∀ seen, (dedupGo seen l).Sublist l := by
  induction l with
  | nil =>
    intro seen
    simp [dedupGo]
  | cons c rest ih =>
    intro seen
    by_cases h : basename c ∈ seen
    · simp only [dedupGo, if_pos h]
      exact (ih seen).cons c
    · simp only [dedupGo, if_neg h]
      exact (ih (seen ++ [basename c])).cons₂ c

theorem dedupGo_eq_keepFirst (l : List String) :
    ∀ seen, dedupGo seen l =
      keepFirstOccurrences (l.filter (fun c => decide (basename c ∉ seen))) := by
  induction l with
  | nil =>
    intro seen
    simp [dedupGo, keepFirstOccurrences]
  | cons c rest ih =>
    intro seen
    by_cases h : basename c ∈ seen
    · rw [List.filter_cons_of_neg (by simp [h])]
      simp only [dedupGo, if_pos h]
      exact ih seen
    · rw [List.filter_cons_of_pos (by simp [h])]
      simp only [dedupGo, if_neg h]
      rw [keepFirstOccurrences, ih (seen ++ [basename c])]
      congr 1
      rw [List.filter_filter]
      refine congrArg _ (List.filter_congr ?_)
      intro a _
      by_cases h1 : basename a ∈ seen <;>
        by_cases h2 : basename a = basename c <;>
          simp [h1, h2, List.mem_append]

theorem cleanInv_run (cfg : RunCfg) (en : Bool) (o : StartOutcome)
    (evs : List Event) : CleanInv cfg (run cfg en o evs) := by
  have h0 : CleanInv cfg { initState with prevState := some en } :=
    Or.inl ⟨rfl, rfl⟩
  have hstart : CleanInv cfg (startUploader cfg en o) := by
    cases en with
    | true =>
      simpa [startUploader] using
        cleanInv_load cfg o { initState with prevState := some true } h0
    | false => simpa [startUploader] using h0
  have hfold : ∀ t, CleanInv cfg t →
      CleanInv cfg (evs.foldl (step cfg) t) := by
    induction evs with
    | nil => intro t ht; exact ht
    | cons e rest ih =>
      intro t ht
      exact ih _ (cleanInv_step cfg t e ht)
  exact hfold _ hstart

/-- C1 counterexample: with the sticky policy already `remove`, a remote
listing holding an extra cartridge and an archive artifact has the
archive name `bundle.zip` included in the returned delete set, refuting
the claim that `.zip` entries are never included whatever the sticky
policy. -/
theorem C1_counterexample :
    endsWithZip ("bundle.zip") = true ∧
    "bundle.zip" ∈ (askCleanCartridge (some RemoveFilesMode.remove) none none
      ["cartA", "bundle.zip"] []).deleted := by
  decide

/-- C1 (amended): remote entries ending in `.zip` are excluded from the
extra-set computation, so archive artifacts alone never trigger deletion:
whenever every remote name absent locally ends in `.zip`, the returned
delete set is empty, whatever the sticky policy, the config resolution or
the prompt answer. (`.zip` names can still appear in a non-empty delete
set, but only as part of the full-listing remove semantics.) -/
theorem C1_zip_never_triggers_deletion (mode : Option RemoveFilesMode)
    (cr : Option CartridgeResolution) (pr : Option PromptChoice)
    (fileNamesOnSandbox cartridgesToUpload : List String)
    (h : ∀ n ∈ diff (cartridgesToUpload.map basename) fileNamesOnSandbox,
      endsWithZip n = true) :
    (askCleanCartridge mode cr pr fileNamesOnSandbox
      cartridgesToUpload).deleted = [] := by
  have he : extraOnSB fileNamesOnSandbox cartridgesToUpload = [] := by
    apply List.filter_eq_nil_iff.mpr
    intro a ha
    simp [h a ha]
  simp [askCleanCartridge, he]

/-- Witness for C1 (amended) at a concrete input. -/
theorem C1_zip_never_triggers_deletion_witness :
    (∀ n ∈ diff (List.map basename []) ["bundle.zip"], endsWithZip n = true) ∧
    (askCleanCartridge (some RemoveFilesMode.remove) none none
      ["bundle.zip"] []).deleted = [] :=
  ⟨by decide, C1_zip_never_triggers_deletion (some RemoveFilesMode.remove)
    none none ["bundle.zip"] [] (by decide)⟩

/-- C2 counterexample: with the sticky policy set to `remove` but no
extra remote entry, `askCleanCartridge` returns the empty set, not the
entire remote listing, refuting the claim that under policy `remove`
every call with any inputs returns the whole enumerated listing. -/
theorem C2_counterexample :
    (askCleanCartridge (some RemoveFilesMode.remove) none none
      ["cartA"] ["/ws/cartA"]).deleted = [] ∧
    (askCleanCartridge (some RemoveFilesMode.remove) none none
      ["cartA"] ["/ws/cartA"]).deleted ≠ ["cartA"] := by
  decide

/-- C2 (amended): once the sticky policy is set, `askCleanCartridge`
never prompts again, never changes the policy, and returns the
deterministic mapping whenever the extra set is non-empty: the entire
remote listing under `remove`, the empty set under `leave`; when the
extra set is empty the result is empty for either policy. -/
theorem C2_sticky_policy (m : RemoveFilesMode)
    (cr : Option CartridgeResolution) (pr : Option PromptChoice)
    (fileNamesOnSandbox cartridgesToUpload : List String) :
    (askCleanCartridge (some m) cr pr fileNamesOnSandbox
      cartridgesToUpload).prompted = false ∧
    (askCleanCartridge (some m) cr pr fileNamesOnSandbox
      cartridgesToUpload).mode = some m ∧
    (askCleanCartridge (some m) cr pr fileNamesOnSandbox
      cartridgesToUpload).deleted =
      (if extraOnSB fileNamesOnSandbox cartridgesToUpload ≠ [] ∧
          m = RemoveFilesMode.remove
        then fileNamesOnSandbox else []) := by
  by_cases he : (extraOnSB fileNamesOnSandbox cartridgesToUpload).length = 0
  · have h0 : extraOnSB fileNamesOnSandbox cartridgesToUpload = [] :=
      List.length_eq_zero.mp he
    simp [askCleanCartridge, he, h0]
  · have hne : extraOnSB fileNamesOnSandbox cartridgesToUpload ≠ [] := by
      intro hh
      exact he (by simp [hh])
    cases m <;> simp [askCleanCartridge, he, hne]

/-- C3: with extra non-archive remote names, no sticky policy, no config
resolution and a dismissed prompt, the delete set is empty, the prompt
was indeed shown, and no policy gets recorded: absence of a policy and of
an explicit answer never defaults to deletion. -/
theorem C3_dismissed_prompt_deletes_nothing
    (fileNamesOnSandbox cartridgesToUpload : List String)
    (h : extraOnSB fileNamesOnSandbox cartridgesToUpload ≠ []) :
    (askCleanCartridge none none none fileNamesOnSandbox
      cartridgesToUpload).deleted = [] ∧
    (askCleanCartridge none none none fileNamesOnSandbox
      cartridgesToUpload).prompted = true ∧
    (askCleanCartridge none none none fileNamesOnSandbox
      cartridgesToUpload).mode = none := by
  have he : ¬ (extraOnSB fileNamesOnSandbox cartridgesToUpload).length = 0 := by
    simpa [List.length_eq_zero] using h
  simp [askCleanCartridge, he]

/-- Witness for C3 at a concrete input. -/
theorem C3_dismissed_prompt_deletes_nothing_witness :
    extraOnSB ["extraCart"] [] ≠ [] ∧
    (askCleanCartridge none none none ["extraCart"] []).deleted = [] :=
  ⟨by decide, (C3_dismissed_prompt_deletes_nothing ["extraCart"] []
    (by decide)).1⟩

/-- C4: at most one upload subscription is live per `Uploader` instance
after any run (initial start plus any sequence of commands, enabled-flag
flips and start outcomes): every start path tears the previous
subscription down before constructing the new one. -/
theorem C4_at_most_one_live_session (cfg : RunCfg) (enabled : Bool)
    (outcome : StartOutcome) (events : List Event) :
    liveCount (run cfg enabled outcome events) ≤ 1 :=
  liveCount_le_one _ (sessionInv_run cfg enabled outcome events)

/-- C5: `removeDuplicateCartridges` returns exactly the first occurrence
in input order of each distinct basename (the spec-level
`keepFirstOccurrences`), and the output is a sublist of the input, so the
relative order of kept elements is preserved and every later occurrence
of an already seen basename is dropped. -/
theorem C5_dedup_keeps_first_occurrences (l : List String) :
    removeDuplicateCartridges l = keepFirstOccurrences l ∧
    (removeDuplicateCartridges l).Sublist l := by
  constructor
  · show dedupGo [] l = keepFirstOccurrences l
    rw [dedupGo_eq_keepFirst l []]
    refine congrArg _ ?_
    apply List.filter_eq_self.mpr
    intro a _
    simp
  · exact dedupGo_sublist l []

/-- C6 failing input: with resolved cartridges `/w1/cartX` and
`/w2/cartX` (same basename) and allow-list `[cartX, cartY]`, the filtered
list has the same length as the allow-list, so the code shows no warning,
although `cartY` matches no resolved cartridge basename — the code
conditions the warning on a length comparison, not on missing names. -/
theorem C6_missing_name_without_warning :
    missingWarningShown ["/w1/cartX", "/w2/cartX"] ["cartX", "cartY"] = false ∧
    missedCartridges ["cartX", "cartY"]
      (allowListFilter ["/w1/cartX", "/w2/cartX"] ["cartX", "cartY"]) =
      ["cartY"] := by
  decide

/-- C7: when a start attempt fails (config load error when `k` is true,
transport init error when `k` is false), the error report (message line
plus stack line when available) is appended exactly once to the log, no
subscription is live afterwards, and exactly one (dead) subscription was
added — the manager is stopped and, since only a new event can create a
subscription, there is no automatic retry. -/
theorem C7_start_failure_reported_and_stopped (cfg : RunCfg)
    (enabled : Bool) (outcome : StartOutcome) (events : List Event)
    (msg : String) (stack : Option String) (k : Bool) :
    liveCount (step cfg (run cfg enabled outcome events)
      (Event.cmdEnable (if k then StartOutcome.configLoadError msg stack
        else StartOutcome.initError msg stack))) = 0 ∧
    (step cfg (run cfg enabled outcome events)
      (Event.cmdEnable (if k then StartOutcome.configLoadError msg stack
        else StartOutcome.initError msg stack))).log =
      (run cfg enabled outcome events).log ++
      (if (run cfg enabled outcome events).current.isSome
        then ["Restarting"] else ["Starting..."]) ++
      (if k then [] else ["Using config file " ++ cfg.configFilename]) ++
      errorLines msg stack ∧
    (step cfg (run cfg enabled outcome events)
      (Event.cmdEnable (if k then StartOutcome.configLoadError msg stack
        else StartOutcome.initError msg stack))).sessions.length =
      (run cfg enabled outcome events).sessions.length + 1 :=
  loadUploaderConfig_error cfg (run cfg enabled outcome events) msg stack k
    (sessionInv_run cfg enabled outcome events)

/-- C8: over any run, the sequence of `cleanOnStart` values passed to the
transport is either empty or the configured `clean.on.start` value
followed only by `true`: the setting is consulted once per process and
every subsequent session start passes `true`. -/
theorem C8_clean_on_start_consulted_once (cfg : RunCfg) (enabled : Bool)
    (outcome : StartOutcome) (events : List Event) :
    cleanValues (run cfg enabled outcome events) = [] ∨
    ∃ n, cleanValues (run cfg enabled outcome events) =
      cfg.cleanOnStartCfg :: List.replicate n true := by
  rcases cleanInv_run cfg enabled outcome events with ⟨_, h⟩ | ⟨_, h⟩
  · exact Or.inl h
  · exact Or.inr h

/-- C9: for every input and state, the delete set returned by
`askCleanCartridge` is either empty or the entire remote listing passed
in — never a proper non-empty subset; and the one-shot Remove All choice
also returns the full listing whenever the extra set is non-empty. -/
theorem C9_all_or_nothing (mode : Option RemoveFilesMode)
    (cr : Option CartridgeResolution) (pr : Option PromptChoice)
    (fileNamesOnSandbox cartridgesToUpload : List String) :
    ((askCleanCartridge mode cr pr fileNamesOnSandbox
        cartridgesToUpload).deleted = [] ∨
      (askCleanCartridge mode cr pr fileNamesOnSandbox
        cartridgesToUpload).deleted = fileNamesOnSandbox) ∧
    (extraOnSB fileNamesOnSandbox cartridgesToUpload ≠ [] →
      (askCleanCartridge none none (some PromptChoice.removeAllOnce)
        fileNamesOnSandbox cartridgesToUpload).deleted =
        fileNamesOnSandbox) := by
  constructor
  · by_cases he : (extraOnSB fileNamesOnSandbox cartridgesToUpload).length = 0
    · left
      simp [askCleanCartridge, he]
    · rcases mode with _ | m
      · rcases cr with _ | c
        · rcases pr with _ | p
          · left
            simp [askCleanCartridge, he]
          · cases p <;> simp [askCleanCartridge, he]
        · cases c <;> simp [askCleanCartridge, he]
      · cases m <;> simp [askCleanCartridge, he]
  · intro h
    have he : ¬ (extraOnSB fileNamesOnSandbox
        cartridgesToUpload).length = 0 := by
      simpa [List.length_eq_zero] using h
    simp [askCleanCartridge, he]

/-- Witness for C9 at a concrete input. -/
theorem C9_all_or_nothing_witness :
    (askCleanCartridge none none (some PromptChoice.removeAllOnce)
      ["cartA", "bundle.zip"] []).deleted = ["cartA", "bundle.zip"] :=
  (C9_all_or_nothing none none (some PromptChoice.removeAllOnce)
    ["cartA", "bundle.zip"] []).2 (by decide)

/-- C10: filtering an already allow-list-filtered cartridge set again by
the same non-empty allow-list yields the same set. -/
theorem C10_allow_list_filter_idempotent
    (cartridges allowList : List String) (_h : allowList ≠ []) :
    allowListFilter (allowListFilter cartridges allowList) allowList =
      allowListFilter cartridges allowList := by
  rw [allowListFilter, allowListFilter, List.filter_filter]
  apply List.filter_congr
  intro a _
  exact Bool.and_self _

/-- Witness for C10 at a concrete input. -/
theorem C10_allow_list_filter_idempotent_witness :
    (["cartX"] : List String) ≠ [] ∧
    allowListFilter (allowListFilter ["/w/cartX", "/w/other"] ["cartX"])
      ["cartX"] = allowListFilter ["/w/cartX", "/w/other"] ["cartX"] :=
  ⟨by decide, C10_allow_list_filter_idempotent ["/w/cartX", "/w/other"]
    ["cartX"] (by decide)⟩

end Prophet
